import Mathlib

/-!
Verification model of `src/scraper/index.py` (suumo-notification).

The Python module is embedded shallowly:
* Python strings are Lean `String` / `List Char`; `str.strip`, `str.split`,
  f-string formatting and the `urllib.parse` helpers used by the scraper are
  translated as executable functions.
* BeautifulSoup tags are a `Node` tree; `find` / `find_all` / `.text` /
  `.get` are translated on that tree.
* Fallible Python code (attribute access on `None`, list indexing, `del` on a
  missing dict key) is modelled with `Except PyErr`.
* The DynamoDB table is a list of stored items; `put_item` with
  `ConditionExpression=Attr("id").not_exists()` plus the
  `ConditionalCheckFailedException` handler is modelled as a conditional
  insert.
-/

set_option maxHeartbeats 1000000

deriving instance DecidableEq for Except

namespace Suumo

/-! ### Python string helpers -/

/-- Whitespace characters stripped by Python `str.strip()` (ASCII part). -/
def isPyWs (c : Char) : Bool :=
  c = ' ' || c = '\t' || c = '\n' || c = '\r' || c = '\x0b' || c = '\x0c'

/-- Python `str.strip()` on a character list. -/
def pyStripL (l : List Char) : List Char :=
  ((l.dropWhile isPyWs).reverse.dropWhile isPyWs).reverse

/-- Python `str.strip()`. -/
def pyStrip (s : String) : String :=
  ⟨pyStripL s.data⟩

/-- Python `str.split(sep)` for a one-character separator:
`"".split(sep) = [""]`, and separators delimit (possibly empty) fields. -/
def splitOnChar (sep : Char) : List Char → List (List Char)
  | [] => [[]]
  | c :: cs =>
    let r := splitOnChar sep cs
    if c = sep then [] :: r
    else
      match r with
      | [] => [[c]]
      | g :: gs => (c :: g) :: gs

/-- Python `sep.join(parts)` for a one-character separator. -/
def intercalateChar (sep : Char) : List (List Char) → List Char
  | [] => []
  | [g] => g
  | g :: gs => g ++ sep :: intercalateChar sep gs

/-- Python `s.split(sep, 1)` restricted to the case used by `parse_qsl`:
`none` when `sep` does not occur, otherwise the parts before and after the
first occurrence. -/
def splitAtFirst (sep : Char) : List Char → Option (List Char × List Char)
  | [] => none
  | c :: cs =>
    if c = sep then some ([], cs)
    else
      match splitAtFirst sep cs with
      | none => none
      | some (k, v) => some (c :: k, v)

/-- Python `s.split(sep)` on `String`s, one-character separator. -/
def pySplit (s : String) (sep : Char) : List String :=
  (splitOnChar sep s.data).map (fun l => ⟨l⟩)

/-- Value of a hexadecimal digit, as used by `urllib.parse.unquote`. -/
def hexVal (c : Char) : Option Nat :=
  if 48 ≤ c.toNat && c.toNat ≤ 57 then some (c.toNat - 48)
  else if 97 ≤ c.toNat && c.toNat ≤ 102 then some (c.toNat - 87)
  else if 65 ≤ c.toNat && c.toNat ≤ 70 then some (c.toNat - 55)
  else none

/-- The `'+' → ' '` replacement performed by `urllib.parse.unquote_plus`. -/
def plusToSpace (l : List Char) : List Char :=
  l.map (fun c => if c = '+' then ' ' else c)

/-- Percent-decoding performed by `urllib.parse.unquote` (ASCII model):
`%XY` with two hex digits decodes to one character, otherwise the `%` is
kept literally. -/
def percentDecodeFuel : List Char → Nat → List Char
  | l, 0 => l
  | [], _ => []
  | c :: rest, fuel + 1 =>
    if c = '%' then
      match rest with
      | a :: b :: rest2 =>
        match hexVal a, hexVal b with
        | some x, some y => Char.ofNat (16 * x + y) :: percentDecodeFuel rest2 fuel
        | _, _ => '%' :: percentDecodeFuel rest fuel
      | _ => '%' :: percentDecodeFuel rest fuel
    else c :: percentDecodeFuel rest fuel

/-- Percent-decoding with fuel `l.length`, which always suffices because
every step consumes at least one character. -/
def percentDecode (l : List Char) : List Char :=
  percentDecodeFuel l l.length

/-- `urllib.parse.unquote_plus`. -/
def unquotePlus (l : List Char) : List Char :=
  percentDecode (plusToSpace l)

/-- `urllib.parse.parse_qsl(qs)` with CPython's default arguments
(`keep_blank_values=False`, `strict_parsing=False`, separator `'&'`):
empty fields are skipped, fields without `'='` are skipped, fields whose
value part is empty are skipped, and names and values are unquoted. -/
def parseQsl (qs : List Char) : List (List Char × List Char) :=
  (splitOnChar '&' qs).filterMap fun nv =>
    if nv = [] then none
    else
      match splitAtFirst '=' nv with
      | none => none
      | some (n, v) =>
        if v = [] then none else some (unquotePlus n, unquotePlus v)

/-- Decimal digit character, as produced by Python `str(int)`. -/
def digitChar (d : Nat) : Char := Char.ofNat (48 + d)

/-- Fuelled decimal rendering of a natural number (fuel `n + 1` always
suffices). -/
def natDigitsFuel : Nat → Nat → List Char
  | _, 0 => []
  | n, fuel + 1 =>
    if n < 10 then [digitChar n]
    else natDigitsFuel (n / 10) fuel ++ [digitChar (n % 10)]

/-- Python `str(n)` for a natural number `n`. -/
def natDigits (n : Nat) : List Char := natDigitsFuel n (n + 1)

/-! ### HTML document model (BeautifulSoup fragment) -/

mutual
/-- A parsed markup node: an element with a tag name, attributes and
children, or a text node. -/
inductive Node where
  | elem (tag : String) (attrs : List (String × String)) (children : NodeList)
  | text (s : String)
/-- A sequence of sibling nodes. -/
inductive NodeList where
  | nil
  | cons (hd : Node) (tl : NodeList)
end

/-- Build a `NodeList` from a `List Node`. -/
def listToNodes : List Node → NodeList
  | [] => .nil
  | n :: ns => .cons n (listToNodes ns)

/-- Attribute lookup (`tag.get(key)` / `tag[key]` source side). -/
def lookupAttr : List (String × String) → String → Option String
  | [], _ => none
  | (k, v) :: rest, key => if k = key then some v else lookupAttr rest key

/-- BeautifulSoup `tag.get(key)`. -/
def Node.getAttr : Node → String → Option String
  | .elem _ attrs _, key => lookupAttr attrs key
  | .text _, _ => none

/-- Does the `class` attribute contain `cls` as one space-separated token?
(BeautifulSoup `class_=` matching.) -/
def hasClassAttr (attrs : List (String × String)) (cls : String) : Bool :=
  match lookupAttr attrs "class" with
  | none => false
  | some v => (splitOnChar ' ' v.data).any (fun t => t == cls.data)

/-- Matcher for `find`/`find_all(tag)`. -/
def matchTag (tag : String) : Node → Bool
  | .elem t _ _ => t == tag
  | .text _ => false

/-- Matcher for `find`/`find_all(tag, class_=cls)`. -/
def matchTagClass (tag cls : String) : Node → Bool
  | .elem t attrs _ => t == tag && hasClassAttr attrs cls
  | .text _ => false

mutual
/-- BeautifulSoup `tag.find_all(...)`: all matching elements among the strict
descendants of the node, in document (pre-)order. -/
def findAllN (p : Node → Bool) : Node → List Node
  | .text _ => []
  | .elem _ _ cs => findAllL p cs
/-- All matching elements in a sibling sequence and their subtrees. -/
def findAllL (p : Node → Bool) : NodeList → List Node
  | .nil => []
  | .cons c cs => (if p c then [c] else []) ++ findAllN p c ++ findAllL p cs
end

/-- BeautifulSoup `tag.find(...)`: first match in document order, if any. -/
def findFirstN (p : Node → Bool) (n : Node) : Option Node :=
  (findAllN p n).head?

mutual
/-- BeautifulSoup `tag.text`: concatenation of all descendant text nodes in
document order, with nothing inserted between them. -/
def textN : Node → String
  | .text s => s
  | .elem _ _ cs => textL cs
/-- Concatenated text of a sibling sequence. -/
def textL : NodeList → String
  | .nil => ""
  | .cons c cs => textN c ++ textL cs
end

/-! ### Data model and Python-level errors -/

/-- `RoomInfo` dataclass. The `id` field is declared `str` in the source but
is populated from `tag.get("value")`, which yields Python `None` when the
attribute is absent; at runtime it is therefore an optional string. -/
structure RoomInfo where
  id : Option String
  image_urls : List String
  floor : String
  price_rent : String
  price_maintenance : String
  price_deposit : String
  price_gratuity : String
  section_type : String
  area : String
  deriving DecidableEq, Repr

/-- Python exceptions the embedded code can raise. -/
inductive PyErr where
  /-- e.g. calling `.get`/`.text`/`.split` on `None`. -/
  | attributeError
  /-- `del d[k]` where `k` is not a key of `d`. -/
  | keyError
  /-- list subscript out of range. -/
  | indexError
  deriving DecidableEq, Repr

/-- Raise `e` when the optional value is `None` (the Python code would next
call a method on `None`, or subscript past the end). -/
def req {α : Type} (o : Option α) (e : PyErr) : Except PyErr α :=
  match o with
  | some a => Except.ok a
  | none => Except.error e

/-! ### `SuumoScraper._scrape_room` -/

/-- `SuumoScraper._scrape_room(room_tag)`. Field expressions are evaluated in
the source order of the `RoomInfo(...)` keyword arguments; the first failing
lookup raises. `id` uses `.get("value")`, which does not raise when the
attribute is missing. `area` is the only text field taken without
`.strip()`. -/
def scrapeRoom (roomTag : Node) : Except PyErr RoomInfo :=
  match findFirstN (matchTag "input") roomTag with
  | none => Except.error .attributeError
  | some inputEl =>
    match findFirstN (matchTagClass "div" "casssetteitem_other-thumbnail") roomTag with
    | none => Except.error .attributeError
    | some thumbEl =>
      match thumbEl.getAttr "data-imgs" with
      | none => Except.error .attributeError
      | some imgs =>
        match (findAllN (matchTag "td") roomTag).get? 2 with
        | none => Except.error .indexError
        | some floorTd =>
          match findFirstN (matchTagClass "span" "cassetteitem_price--rent") roomTag with
          | none => Except.error .attributeError
          | some rentEl =>
            match findFirstN (matchTagClass "span" "cassetteitem_price--administration") roomTag with
            | none => Except.error .attributeError
            | some adminEl =>
              match findFirstN (matchTagClass "span" "cassetteitem_price--deposit") roomTag with
              | none => Except.error .attributeError
              | some depositEl =>
                match findFirstN (matchTagClass "span" "cassetteitem_price--gratuity") roomTag with
                | none => Except.error .attributeError
                | some gratuityEl =>
                  match findFirstN (matchTagClass "span" "cassetteitem_madori") roomTag with
                  | none => Except.error .attributeError
                  | some madoriEl =>
                    match findFirstN (matchTagClass "span" "cassetteitem_menseki") roomTag with
                    | none => Except.error .attributeError
                    | some mensekiEl =>
                      Except.ok
                        { id := inputEl.getAttr "value"
                          image_urls := pySplit imgs ','
                          floor := pyStrip (textN floorTd)
                          price_rent := pyStrip (textN rentEl)
                          price_maintenance := pyStrip (textN adminEl)
                          price_deposit := pyStrip (textN depositEl)
                          price_gratuity := pyStrip (textN gratuityEl)
                          section_type := pyStrip (textN madoriEl)
                          area := textN mensekiEl }

/-! ### `SuumoScraper.scrape` (crawl loop) -/

/-- The `while infos := self._scrape_page(page): ...` loop of
`SuumoScraper.scrape`, with per-page extraction results abstracted as
`pages` and an explicit fuel bound (`none` = fuel exhausted before the loop
terminated). Returns the list of fetched page numbers and the accumulated
extraction results. -/
def scrapeFuel {α : Type} (pages : Nat → List α) : Nat → Nat → Option (List Nat × List α)
  | _, 0 => none
  | page, fuel + 1 =>
    let infos := pages page
    if infos.isEmpty then some ([page], [])
    else
      match scrapeFuel pages (page + 1) fuel with
      | none => none
      | some (fetched, acc) => some (page :: fetched, infos ++ acc)

/-- `SuumoScraper.scrape`: start at page 1. -/
def scrape {α : Type} (pages : Nat → List α) (fuel : Nat) : Option (List Nat × List α) :=
  scrapeFuel pages 1 fuel

/-! ### `SuumoScraper.__init__` / `_scrape_page` query handling -/

/-- `SuumoScraper.__init__`: parse the entry URL's query string and keep, in
order, every parameter whose key is not `"page"`. -/
def scraperParams (query : List Char) : List (List Char × List Char) :=
  (parseQsl query).filter fun kv => !(kv.1 == "page".data)

/-- The `f"{k}={v}"` rendering of one kept parameter. -/
def pairSeg (kv : List Char × List Char) : List Char :=
  kv.1 ++ '=' :: kv.2

/-- `SuumoScraper._scrape_page`: rebuild the query string as
`"&".join([f"{k}={v}" for k, v in self.params] + [f"page={page}"])`. -/
def rebuildQuery (ps : List (List Char × List Char)) (page : Nat) : List Char :=
  intercalateChar '&' (ps.map pairSeg ++ ["page=".data ++ natDigits page])

/-- The query parameters of a query string, read off syntactically: one entry
per nonempty `&`-separated field, split at the first `'='` (`none` when the
field has no `'='`), with no decoding. -/
def rawPairs (qs : List Char) : List (List Char × Option (List Char)) :=
  (splitOnChar '&' qs).filterMap fun seg =>
    if seg = [] then none
    else
      match splitAtFirst '=' seg with
      | none => some (seg, none)
      | some (k, v) => some (k, some v)

/-- A character that `unquote_plus` maps to itself. -/
def plainChar (c : Char) : Bool :=
  !(c == '%') && !(c == '+')

/-- A well-behaved query field: it has a `'='`, a nonempty value, and neither
key nor value uses `%`-escapes or `+`. -/
def segOk (seg : List Char) : Bool :=
  match splitAtFirst '=' seg with
  | none => false
  | some (k, v) => !(v == []) && k.all plainChar && v.all plainChar

/-- A query string all of whose fields are well behaved. -/
def queryOk (q : List Char) : Bool :=
  (splitOnChar '&' q).all segOk

/-! ### `RoomInfoRegister` -/

/-- The building fields that survive in the denormalized snapshot
(`building_info.__dict__` after `del building_info_dict["room_infos"]`). -/
structure BuildingStripped where
  name : String
  image_url : String
  address : String
  accesses : List String
  age : String
  floor : String
  deriving DecidableEq, Repr

/-- A `BuildingInfo` Python object. `room_infos = none` models the state
after `del building_info.__dict__["room_infos"]` has removed the attribute
from the instance. -/
structure BuildingObj where
  name : String
  image_url : String
  address : String
  accesses : List String
  age : String
  floor : String
  room_infos : Option (List RoomInfo)
  deriving DecidableEq, Repr

/-- The denormalized building snapshot (all fields but the room list). -/
def stripBuilding (b : BuildingObj) : BuildingStripped :=
  { name := b.name
    image_url := b.image_url
    address := b.address
    accesses := b.accesses
    age := b.age
    floor := b.floor }

/-- One stored DynamoDB item, as assembled in `_register_room_info`:
`{"id": room_info.id, "room_info": room_info.__dict__,
"building_info": building_info_dict}`. -/
structure Item where
  id : Option String
  room_info : RoomInfo
  building_info : BuildingStripped
  deriving DecidableEq, Repr

/-- The item written for a room under building `b`. -/
def mkItem (r : RoomInfo) (b : BuildingObj) : Item :=
  { id := r.id, room_info := r, building_info := stripBuilding b }

/-- `RoomInfoRegister._register_room_info(room_info, building_info)`:
take `building_info.__dict__` and `del` its `"room_infos"` entry (a
`KeyError` if the attribute is already gone — this mutates the building
object), then `put_item` with `ConditionExpression=Attr("id").not_exists()`,
swallowing `ConditionalCheckFailedException`. Returns the updated building
object and table. -/
def registerRoomInfo (r : RoomInfo) (b : BuildingObj) (tbl : List Item) :
    Except PyErr (BuildingObj × List Item) :=
  match b.room_infos with
  | none => Except.error .keyError
  | some _ =>
    let b2 := { b with room_infos := none }
    if tbl.any (fun it => it.id == r.id) then Except.ok (b2, tbl)
    else Except.ok (b2, tbl ++ [mkItem r b])

/-- The inner loop of `RoomInfoRegister.register` over one building: the room
list is read once at loop entry, then each room is registered against the
(possibly mutated) building object. -/
def registerRooms : List RoomInfo → BuildingObj → List Item →
    Except PyErr (BuildingObj × List Item)
  | [], b, tbl => Except.ok (b, tbl)
  | r :: rs, b, tbl =>
    match registerRoomInfo r b tbl with
    | Except.error e => Except.error e
    | Except.ok (b2, tbl2) => registerRooms rs b2 tbl2

/-- `RoomInfoRegister.register`, restricted to one building:
`for room_info in building_info.room_infos: ...` (an `AttributeError` if the
attribute is absent when the loop starts). -/
def registerBuilding (b : BuildingObj) (tbl : List Item) :
    Except PyErr (BuildingObj × List Item) :=
  match b.room_infos with
  | none => Except.error .attributeError
  | some rooms => registerRooms rooms b tbl

/-- `RoomInfoRegister.register` over the whole building list. -/
def registerAll : List BuildingObj → List Item → Except PyErr (List Item)
  | [], tbl => Except.ok tbl
  | b :: bs, tbl =>
    match registerBuilding b tbl with
    | Except.error e => Except.error e
    | Except.ok (_, tbl2) => registerAll bs tbl2

/-! ### Concrete fixtures (shaped after `tests/unit/test_scraper.py`) -/

/-- A `td` cell with the given children. -/
def tdOf (children : List Node) : Node :=
  Node.elem "td" [] (listToNodes children)

/-- A `td` cell holding only text. -/
def tdText (s : String) : Node :=
  tdOf [Node.text s]

/-- A classed `span` with the given children. -/
def spanC (cls : String) (children : List Node) : Node :=
  Node.elem "span" [("class", cls)] (listToNodes children)

/-- A classed `span` holding only text. -/
def spanText (cls s : String) : Node :=
  spanC cls [Node.text s]

/-- A room fragment (`tbody` holding one `tr` of cells). -/
def mkRoom (cells : List Node) : Node :=
  Node.elem "tbody" [] (listToNodes [Node.elem "tr" [] (listToNodes cells)])

/-- Area-cell children rendering `40.0m<sup>2</sup>`. -/
def stdAreaKids : List Node :=
  [Node.text "40.0m", Node.elem "sup" [] (listToNodes [Node.text "2"])]

/-- Cells of a room row: id input, thumbnail, `extra` decorative cells, the
floor cell, then the price/layout cells. With `extra = []` the floor cell is
the third `td`, as in the site's markup. -/
def stdCells (idAttrs : List (String × String)) (extra : List Node)
    (areaKids : List Node) : List Node :=
  [tdOf [Node.elem "input" idAttrs NodeList.nil],
   tdOf [Node.elem "div"
     [("class", "casssetteitem_other-thumbnail"),
      ("data-imgs", "https://example.com/a.jpg,https://example.com/b.jpg")]
     NodeList.nil]]
  ++ extra ++
  [tdText "5F",
   tdOf [spanText "cassetteitem_price--rent" "\n100000yen\n"],
   tdOf [spanText "cassetteitem_price--administration" "5000yen"],
   tdOf [spanText "cassetteitem_price--deposit" "-"],
   tdOf [spanText "cassetteitem_price--gratuity" "-"],
   tdOf [spanText "cassetteitem_madori" "1DK",
         spanC "cassetteitem_menseki" areaKids]]

/-- The `RoomInfo` extracted from `stdCells` with id value `v` and the
standard area markup. -/
def stdInfo (v : Option String) : RoomInfo :=
  { id := v
    image_urls := ["https://example.com/a.jpg", "https://example.com/b.jpg"]
    floor := "5F"
    price_rent := "100000yen"
    price_maintenance := "5000yen"
    price_deposit := "-"
    price_gratuity := "-"
    section_type := "1DK"
    area := "40.0m2" }

example :
    scrapeRoom (mkRoom (stdCells [("value", "99999999")] [] stdAreaKids)) =
      Except.ok (stdInfo (some "99999999")) := by decide

example :
    scrapeRoom (mkRoom (stdCells [("value", "99999999")] [] stdAreaKids)) =
      Except.ok (stdInfo (some "99999999")) := rfl

example :
    parseQsl "foo=bar&page=5".data =
      [("foo".data, "bar".data), ("page".data, "5".data)] := by decide

example :
    scraperParams "foo=bar&page=5".data = [("foo".data, "bar".data)] := by decide

example :
    rebuildQuery (scraperParams "foo=bar&page=5".data) 1 = "foo=bar&page=1".data := by
  decide

example : scrape (fun p => if p ≤ 2 then [p * 10] else []) 5 =
    some ([1, 2, 3], [10, 20]) := by decide

/-- A sample room record with the given id value. -/
def sampleRoom (v : String) : RoomInfo := stdInfo (some v)

/-- A freshly constructed sample building holding `rooms`. -/
def sampleBldg (rooms : List RoomInfo) : BuildingObj :=
  { name := "Building"
    image_url := "https://example.com/image.jpg"
    address := "Tokyo somewhere"
    accesses := ["JR line / walk 1 min"]
    age := "new"
    floor := "10F"
    room_infos := some rooms }

/-! ### Persistence claims -/

/-- C1: persisting the same room id twice — each time through a freshly
constructed building object, as happens across crawl runs — leaves exactly
one stored record holding the originally-written field values; the second
write is a silent no-op (`ConditionalCheckFailedException` swallowed), not
an error and not an overwrite, even when the later record's fields differ. -/
theorem register_put_if_absent_idempotent
    (r1 r2 : RoomInfo) (b1 b2 : BuildingObj) (tbl : List Item)
    (l1 l2 : List RoomInfo)
    (hb1 : b1.room_infos = some l1) (hb2 : b2.room_infos = some l2)
    (hid : r2.id = r1.id)
    (hfresh : ∀ it ∈ tbl, it.id ≠ r1.id) :
    registerRoomInfo r1 b1 tbl =
      Except.ok ({ b1 with room_infos := none }, tbl ++ [mkItem r1 b1]) ∧
    registerRoomInfo r2 b2 (tbl ++ [mkItem r1 b1]) =
      Except.ok ({ b2 with room_infos := none }, tbl ++ [mkItem r1 b1]) ∧
    (tbl ++ [mkItem r1 b1]).filter (fun it => it.id == r1.id) = [mkItem r1 b1] := by
  have hany : (tbl.any fun it => it.id == r1.id) = false := by
    by_cases hb : (tbl.any fun it => it.id == r1.id) = true
    · obtain ⟨x, hx, hpx⟩ := List.any_eq_true.mp hb
      exact absurd (by simpa using hpx) (hfresh x hx)
    · simpa using hb
  refine ⟨?_, ?_, ?_⟩
  · simp [registerRoomInfo, hb1, hany]
  · have hmem : ((tbl ++ [mkItem r1 b1]).any fun it => it.id == r2.id) = true := by
      simp [List.any_append, mkItem, hid]
    simp [registerRoomInfo, hb2, hmem]
  · rw [List.filter_append]
    have h1 : tbl.filter (fun it => it.id == r1.id) = [] := by
      rw [List.filter_eq_nil_iff]
      intro a ha
      simpa using hfresh a ha
    rw [h1]
    simp [mkItem]

/-- Witness for C1 at a concrete input: same id `"99999999"`, different rent
on the second record, empty initial table. -/
theorem register_put_if_absent_idempotent_witness :
    registerRoomInfo (sampleRoom "99999999") (sampleBldg [sampleRoom "99999999"]) [] =
      Except.ok ({ sampleBldg [sampleRoom "99999999"] with room_infos := none },
        [mkItem (sampleRoom "99999999") (sampleBldg [sampleRoom "99999999"])]) ∧
    registerRoomInfo { sampleRoom "99999999" with price_rent := "999yen" }
        (sampleBldg [{ sampleRoom "99999999" with price_rent := "999yen" }])
        [mkItem (sampleRoom "99999999") (sampleBldg [sampleRoom "99999999"])] =
      Except.ok
        ({ sampleBldg [{ sampleRoom "99999999" with price_rent := "999yen" }] with
            room_infos := none },
          [mkItem (sampleRoom "99999999") (sampleBldg [sampleRoom "99999999"])]) ∧
    ([mkItem (sampleRoom "99999999") (sampleBldg [sampleRoom "99999999"])].filter
        (fun it => it.id == (sampleRoom "99999999").id)) =
      [mkItem (sampleRoom "99999999") (sampleBldg [sampleRoom "99999999"])] := by
  have h := register_put_if_absent_idempotent
    (sampleRoom "99999999") { sampleRoom "99999999" with price_rent := "999yen" }
    (sampleBldg [sampleRoom "99999999"])
    (sampleBldg [{ sampleRoom "99999999" with price_rent := "999yen" }])
    [] [sampleRoom "99999999"] [{ sampleRoom "99999999" with price_rent := "999yen" }]
    rfl rfl rfl (by simp)
  simpa using h

/-- C3: registering a building that holds two rooms raises `KeyError` on the
second room — the first `_register_room_info` call deleted `room_infos` from
the shared `building_info.__dict__`, so the second call's
`del building_info_dict["room_infos"]` fails. The code does not write all
rooms of a multi-room building. -/
theorem register_building_two_rooms_keyError :
    registerBuilding (sampleBldg [sampleRoom "11111111", sampleRoom "22222222"]) [] =
      Except.error PyErr.keyError := by decide

/-- C4: on a fresh id, `_register_room_info` stores exactly one new record,
keyed by the room's id, whose `room_info` part is the whole room record and
whose `building_info` part is the parent building's fields with the nested
room list removed. -/
theorem register_room_info_denormalizes
    (r : RoomInfo) (b : BuildingObj) (tbl : List Item) (l : List RoomInfo)
    (hb : b.room_infos = some l)
    (hfresh : (tbl.any fun it => it.id == r.id) = false) :
    registerRoomInfo r b tbl =
      Except.ok ({ b with room_infos := none }, tbl ++ [mkItem r b]) ∧
    (mkItem r b).id = r.id ∧
    (mkItem r b).room_info = r ∧
    (mkItem r b).building_info = stripBuilding b := by
  refine ⟨?_, rfl, rfl, rfl⟩
  simp [registerRoomInfo, hb, hfresh]

/-- Witness for C4 at a concrete room/building pair and empty table. -/
theorem register_room_info_denormalizes_witness :
    registerRoomInfo (sampleRoom "77777777") (sampleBldg [sampleRoom "77777777"]) [] =
      Except.ok ({ sampleBldg [sampleRoom "77777777"] with room_infos := none },
        [mkItem (sampleRoom "77777777") (sampleBldg [sampleRoom "77777777"])]) ∧
    (mkItem (sampleRoom "77777777") (sampleBldg [sampleRoom "77777777"])).id =
      (sampleRoom "77777777").id ∧
    (mkItem (sampleRoom "77777777") (sampleBldg [sampleRoom "77777777"])).room_info =
      sampleRoom "77777777" ∧
    (mkItem (sampleRoom "77777777") (sampleBldg [sampleRoom "77777777"])).building_info =
      stripBuilding (sampleBldg [sampleRoom "77777777"]) := by
  have h := register_room_info_denormalizes (sampleRoom "77777777")
    (sampleBldg [sampleRoom "77777777"]) [] [sampleRoom "77777777"] rfl (by decide)
  simpa using h

/-- C6: `_register_room_info` mutates the `BuildingInfo` it is given —
`del building_info.__dict__["room_infos"]` removes the `room_infos`
attribute from the live object, so the building is not left unchanged. -/
theorem register_room_info_mutates_building :
    registerRoomInfo (sampleRoom "33333333") (sampleBldg [sampleRoom "33333333"]) [] =
      Except.ok ({ sampleBldg [sampleRoom "33333333"] with room_infos := none },
        [mkItem (sampleRoom "33333333") (sampleBldg [sampleRoom "33333333"])]) ∧
    ({ sampleBldg [sampleRoom "33333333"] with room_infos := none } : BuildingObj) ≠
      sampleBldg [sampleRoom "33333333"] := by decide

/-! ### Room-extraction claims -/

/-- Helper for string-append cancellation on the right. -/
theorem string_append_empty (s : String) : s ++ "" = s := by
  cases s with
  | mk data =>
    show String.mk (data ++ []) = String.mk data
    rw [List.append_nil]

/-- Inversion: a successful `_scrape_room` presupposes that every required
lookup succeeded, and determines the extracted record from those lookups. -/
theorem scrapeRoom_ok_inversion {t : Node} {info : RoomInfo}
    (h : scrapeRoom t = Except.ok info) :
    ∃ inputEl thumbEl imgs floorTd rentEl adminEl depositEl gratuityEl madoriEl mensekiEl,
      findFirstN (matchTag "input") t = some inputEl ∧
      findFirstN (matchTagClass "div" "casssetteitem_other-thumbnail") t = some thumbEl ∧
      Node.getAttr thumbEl "data-imgs" = some imgs ∧
      (findAllN (matchTag "td") t).get? 2 = some floorTd ∧
      findFirstN (matchTagClass "span" "cassetteitem_price--rent") t = some rentEl ∧
      findFirstN (matchTagClass "span" "cassetteitem_price--administration") t = some adminEl ∧
      findFirstN (matchTagClass "span" "cassetteitem_price--deposit") t = some depositEl ∧
      findFirstN (matchTagClass "span" "cassetteitem_price--gratuity") t = some gratuityEl ∧
      findFirstN (matchTagClass "span" "cassetteitem_madori") t = some madoriEl ∧
      findFirstN (matchTagClass "span" "cassetteitem_menseki") t = some mensekiEl ∧
      info = { id := Node.getAttr inputEl "value"
               image_urls := pySplit imgs ','
               floor := pyStrip (textN floorTd)
               price_rent := pyStrip (textN rentEl)
               price_maintenance := pyStrip (textN adminEl)
               price_deposit := pyStrip (textN depositEl)
               price_gratuity := pyStrip (textN gratuityEl)
               section_type := pyStrip (textN madoriEl)
               area := textN mensekiEl } := by
  unfold scrapeRoom at h
  repeat' split at h
  any_goals exact Except.noConfusion h
  rename_i x1 a1 e1 x2 a2 e2 x3 a3 e3 x4 a4 e4 x5 a5 e5 x6 a6 e6 x7 a7 e7 x8 a8 e8
    x9 a9 e9 x10 a10 e10
  injection h with hinfo
  exact ⟨a1, a2, a3, a4, a5, a6, a7, a8, a9, a10,
    e1, e2, e3, e4, e5, e6, e7, e8, e9, e10, hinfo.symm⟩

/-- C7: when a required element is absent from a room fragment — the hidden
id `input`, the thumbnail `div`, the third `td`, or any of the price /
layout / area `span`s — `_scrape_room` raises before any `RoomInfo` is
constructed: extraction returns an error, never a partial record. -/
theorem scrape_room_missing_element_errors (t : Node)
    (h : findFirstN (matchTag "input") t = none
       ∨ findFirstN (matchTagClass "div" "casssetteitem_other-thumbnail") t = none
       ∨ (findAllN (matchTag "td") t).get? 2 = none
       ∨ findFirstN (matchTagClass "span" "cassetteitem_price--rent") t = none
       ∨ findFirstN (matchTagClass "span" "cassetteitem_price--administration") t = none
       ∨ findFirstN (matchTagClass "span" "cassetteitem_price--deposit") t = none
       ∨ findFirstN (matchTagClass "span" "cassetteitem_price--gratuity") t = none
       ∨ findFirstN (matchTagClass "span" "cassetteitem_madori") t = none
       ∨ findFirstN (matchTagClass "span" "cassetteitem_menseki") t = none) :
    ∃ e, scrapeRoom t = Except.error e := by
  cases hres : scrapeRoom t with
  | error e => exact ⟨e, rfl⟩
  | ok info =>
    exfalso
    obtain ⟨i1, i2, i3, i4, i5, i6, i7, i8, i9, i10,
      g1, g2, g3, g4, g5, g6, g7, g8, g9, g10, _⟩ := scrapeRoom_ok_inversion hres
    rcases h with h | h | h | h | h | h | h | h | h <;> simp_all

/-- Witness for C7: a fragment with a single text cell and no id control. -/
theorem scrape_room_missing_element_errors_witness :
    ∃ e, scrapeRoom (mkRoom [tdText "x"]) = Except.error e :=
  scrape_room_missing_element_errors (mkRoom [tdText "x"]) (Or.inl rfl)

/-- C10: when the id `input` element is present but carries no `value`
attribute, extraction does not fail on the id: any successfully extracted
`RoomInfo` has `id = none` (Python `None`), so a non-string dedup key can
flow into persistence. -/
theorem scrape_room_absent_value_gives_none_id (t el : Node) (info : RoomInfo)
    (h1 : findFirstN (matchTag "input") t = some el)
    (h2 : el.getAttr "value" = none)
    (h3 : scrapeRoom t = Except.ok info) :
    info.id = none := by
  obtain ⟨i1, i2, i3, i4, i5, i6, i7, i8, i9, i10,
    g1, g2, g3, g4, g5, g6, g7, g8, g9, g10, hrec⟩ := scrapeRoom_ok_inversion h3
  rw [h1] at g1
  injection g1 with g1
  subst g1
  rw [hrec]
  exact h2

/-- Witness for C10: the standard room fragment whose `input` has a `name`
attribute but no `value`. -/
theorem scrape_room_absent_value_gives_none_id_witness :
    scrapeRoom (mkRoom (stdCells [("name", "bc")] [] stdAreaKids)) =
      Except.ok (stdInfo none) ∧
    (stdInfo none).id = none :=
  ⟨rfl,
    scrape_room_absent_value_gives_none_id
      (mkRoom (stdCells [("name", "bc")] [] stdAreaKids))
      (Node.elem "input" [("name", "bc")] NodeList.nil)
      (stdInfo none) rfl rfl rfl⟩

/-- C8 counterexample: an area `span` whose text carries leading and trailing
whitespace is extracted verbatim — `area` is taken from `.text` without
`.strip()`, so the extracted string is not whitespace-trimmed. -/
theorem scrape_room_area_not_trimmed :
    (scrapeRoom (mkRoom (stdCells [("value", "99999999")] []
        [Node.text " 40.0m", Node.elem "sup" [] (listToNodes [Node.text "2"]),
         Node.text " "]))).map (fun i => i.area) =
      Except.ok " 40.0m2 " ∧
    pyStrip " 40.0m2 " ≠ " 40.0m2 " := by decide

/-- C8 (amended): the extracted `area` is exactly the concatenation of the
area element's descendant text nodes in document order — markup tags
stripped, nothing inserted between text nodes, and no whitespace trimming. -/
theorem scrape_room_area_is_text_concat (t el : Node) (info : RoomInfo)
    (h1 : findFirstN (matchTagClass "span" "cassetteitem_menseki") t = some el)
    (h2 : scrapeRoom t = Except.ok info) :
    info.area = textN el := by
  obtain ⟨i1, i2, i3, i4, i5, i6, i7, i8, i9, i10,
    g1, g2, g3, g4, g5, g6, g7, g8, g9, g10, hrec⟩ := scrapeRoom_ok_inversion h2
  rw [h1] at g10
  injection g10 with g10
  subst g10
  rw [hrec]

/-- Witness for C8 (amended): `40.0m` followed by a superscript `2` yields
the area string `"40.0m2"`, ending in `m2` with no inserted space. -/
theorem scrape_room_area_is_text_concat_witness :
    (stdInfo (some "99999999")).area = textN (spanC "cassetteitem_menseki" stdAreaKids) ∧
    textN (spanC "cassetteitem_menseki" stdAreaKids) = "40.0m2" :=
  ⟨scrape_room_area_is_text_concat
      (mkRoom (stdCells [("value", "99999999")] [] stdAreaKids))
      (spanC "cassetteitem_menseki" stdAreaKids)
      (stdInfo (some "99999999")) rfl rfl,
    by decide⟩

/-- C9 counterexample: two room fragments that differ only by one extra
decorative `td` inserted before the floor cell extract different floor
values — the floor is not located by a structural marker. -/
theorem scrape_room_floor_changes_with_extra_cell :
    (scrapeRoom (mkRoom (stdCells [("value", "99999999")] [] stdAreaKids))).map
        (fun i => i.floor) = Except.ok "5F" ∧
    (scrapeRoom (mkRoom (stdCells [("value", "99999999")] [tdText "NEW!"]
        stdAreaKids))).map (fun i => i.floor) = Except.ok "NEW!" ∧
    ("NEW!" : String) ≠ "5F" := by decide

/-- C9 (amended): the price, layout and area fields are located by class
markers and survive an extra decorative cell unchanged, but the floor is
taken from the third `td` by position index, so the decorative cell's own
text is extracted as the floor. -/
theorem scrape_room_floor_is_positional (s : String) :
    scrapeRoom (mkRoom (stdCells [("value", "99999999")] [tdText s] stdAreaKids)) =
      Except.ok { stdInfo (some "99999999") with floor := pyStrip s } := by
  have h : s ++ "" = s := string_append_empty s
  calc scrapeRoom (mkRoom (stdCells [("value", "99999999")] [tdText s] stdAreaKids))
      = Except.ok { stdInfo (some "99999999") with floor := pyStrip (s ++ "") } := rfl
    _ = Except.ok { stdInfo (some "99999999") with floor := pyStrip s } := by rw [h]

/-! ### Crawl-loop claim -/

/-- Unfolding of the crawl loop from an arbitrary start page: with `k` the
first empty page at or after `p`, the loop fetches `p..k` and accumulates the
extraction results of `p..k-1` in page order. -/
theorem scrapeFuel_spec {α : Type} (pages : Nat → List α) (k : Nat)
    (hk : pages k = []) (hne : ∀ i, 1 ≤ i → i < k → pages i ≠ []) :
    ∀ fuel p, 1 ≤ p → p ≤ k → k + 1 - p ≤ fuel →
      scrapeFuel pages p fuel =
        some (List.range' p (k + 1 - p), ((List.range' p (k - p)).map pages).flatten) := by
  intro fuel
  induction fuel with
  | zero =>
    intro p hp1 hpk hf
    exact absurd hf (by omega)
  | succ fuel ih =>
    intro p hp1 hpk hf
    rcases eq_or_lt_of_le hpk with he | hlt
    · subst he
      rw [show p + 1 - p = 1 from by omega, show p - p = 0 from by omega]
      simp [scrapeFuel, hk, List.range']
    · have hne2 : (pages p).isEmpty = false := by
        rw [List.isEmpty_eq_false_iff_exists_mem]
        rcases List.exists_mem_of_ne_nil _ (hne p hp1 hlt) with ⟨a, ha⟩
        exact ⟨a, ha⟩
      rw [show k + 1 - p = (k - p) + 1 from by omega,
        show k - p = (k - (p + 1)) + 1 from by omega]
      simp only [scrapeFuel, hne2, Bool.false_eq_true, if_false,
        ih (p + 1) (by omega) (by omega) (by omega),
        show k + 1 - (p + 1) = k - (p + 1) + 1 from by omega]
      simp [List.range'_succ]

/-- C2: when page `k` is the first page whose extraction yields no buildings,
the crawl loop fetches exactly pages `1..k` in order and returns the
concatenation of the extraction results of pages `1..k-1`, in page order. -/
theorem crawl_fetches_until_first_empty {α : Type} (pages : Nat → List α)
    (k fuel : Nat) (hk1 : 1 ≤ k) (hk : pages k = [])
    (hne : ∀ i, 1 ≤ i → i < k → pages i ≠ []) (hfuel : k ≤ fuel) :
    scrape pages fuel =
      some (List.range' 1 k, ((List.range' 1 (k - 1)).map pages).flatten) := by
  have h := scrapeFuel_spec pages k hk hne fuel 1 (le_refl 1) hk1 (by omega)
  rw [scrape, h, show k + 1 - 1 = k from by omega]

/-- Witness for C2: pages 1 and 2 hold one building each, page 3 is the
first empty page; the crawl fetches pages 1, 2, 3 and returns the two
buildings in page order. -/
theorem crawl_fetches_until_first_empty_witness :
    scrape (fun p => if p ≤ 2 then [p * 10] else []) 5 =
      some ([1, 2, 3], [10, 20]) := by
  have h := crawl_fetches_until_first_empty (fun p => if p ≤ 2 then [p * 10] else [])
    3 5 (by omega) (by simp) ?_ (by omega)
  · rw [h]
    decide
  · intro i h1 h2
    interval_cases i <;> simp

/-! ### Query-string claims -/

/-- A field produced by splitting on `sep` never contains `sep`. -/
theorem mem_splitOnChar_not_sep {sep : Char} :
    ∀ {l g : List Char}, g ∈ splitOnChar sep l → sep ∉ g := by
  intro l
  induction l with
  | nil =>
    intro g hg
    simp [splitOnChar] at hg
    subst hg
    simp
  | cons c cs ih =>
    intro g hg
    simp only [splitOnChar] at hg
    split at hg
    · rcases List.mem_cons.mp hg with rfl | hg2
      · simp
      · exact ih hg2
    · rename_i hc
      split at hg
      · rcases List.mem_cons.mp hg with rfl | hg2
        · intro hm
          rcases List.mem_cons.mp hm with h1 | h2
          · exact hc h1.symm
          · simp at h2
        · simp at hg2
      · rename_i g0 gs hr
        rcases List.mem_cons.mp hg with rfl | hg2
        · intro hm
          rcases List.mem_cons.mp hm with h1 | h2
          · exact hc h1.symm
          · have hg0 : g0 ∈ splitOnChar sep cs := by
              rw [hr]; exact List.mem_cons_self g0 gs
            exact ih hg0 h2
        · have hgm : g ∈ splitOnChar sep cs := by
            rw [hr]; exact List.mem_cons_of_mem g0 hg2
          exact ih hgm

/-- Splitting a separator-free field is the identity. -/
theorem splitOnChar_no_sep {sep : Char} {g : List Char} (h : sep ∉ g) :
    splitOnChar sep g = [g] := by
  induction g with
  | nil => rfl
  | cons c cs ih =>
    have hc : ¬(c = sep) := fun hcc => h (by rw [hcc]; exact List.mem_cons_self sep cs)
    have hcs : sep ∉ cs := fun hm => h (List.mem_cons_of_mem c hm)
    simp only [splitOnChar, if_neg hc, ih hcs]

/-- Splitting after a leading separator-free field peels it off. -/
theorem splitOnChar_append_sep {sep : Char} {g rest : List Char} (h : sep ∉ g) :
    splitOnChar sep (g ++ sep :: rest) = g :: splitOnChar sep rest := by
  induction g with
  | nil => simp [splitOnChar]
  | cons c cs ih =>
    have hc : ¬(c = sep) := fun hcc => h (by rw [hcc]; exact List.mem_cons_self sep cs)
    have hcs : sep ∉ cs := fun hm => h (List.mem_cons_of_mem c hm)
    simp only [List.cons_append, splitOnChar, List.append_eq, if_neg hc, ih hcs]

/-- `split` is a left inverse of `join` on separator-free fields. -/
theorem splitOnChar_intercalate {sep : Char} :
    ∀ {gs : List (List Char)}, gs ≠ [] → (∀ g ∈ gs, sep ∉ g) →
      splitOnChar sep (intercalateChar sep gs) = gs := by
  intro gs
  induction gs with
  | nil => intro h _; exact absurd rfl h
  | cons g rest ih =>
    intro _ hall
    cases rest with
    | nil =>
      exact splitOnChar_no_sep (hall g (List.mem_cons_self g []))
    | cons g2 rest2 =>
      have h1 : intercalateChar sep (g :: g2 :: rest2) =
          g ++ sep :: intercalateChar sep (g2 :: rest2) := rfl
      rw [h1, splitOnChar_append_sep (hall g (List.mem_cons_self _ _)),
        ih (by simp) (fun x hx => hall x (List.mem_cons_of_mem g hx))]

/-- Splitting at the first `sep` after a `sep`-free prefix. -/
theorem splitAtFirst_append {sep : Char} {k v : List Char} (h : sep ∉ k) :
    splitAtFirst sep (k ++ sep :: v) = some (k, v) := by
  induction k with
  | nil => simp [splitAtFirst]
  | cons c cs ih =>
    have hc : ¬(c = sep) := fun hcc => h (by rw [hcc]; exact List.mem_cons_self sep cs)
    have hcs : sep ∉ cs := fun hm => h (List.mem_cons_of_mem c hm)
    simp only [List.cons_append, splitAtFirst, List.append_eq, if_neg hc, ih hcs]

/-- Inversion for `splitAtFirst`. -/
theorem splitAtFirst_eq_some {sep : Char} :
    ∀ {l k v : List Char}, splitAtFirst sep l = some (k, v) →
      l = k ++ sep :: v ∧ sep ∉ k := by
  intro l
  induction l with
  | nil => intro k v h; exact absurd h (by simp [splitAtFirst])
  | cons c cs ih =>
    intro k v h
    simp only [splitAtFirst] at h
    split at h
    · rename_i hc
      injection h with h2
      injection h2 with hk hv
      subst hk
      subst hv
      constructor
      · rw [hc]; rfl
      · simp
    · rename_i hc
      split at h
      · exact absurd h (by simp)
      · rename_i k0 v0 hr
        injection h with h2
        injection h2 with hk hv
        subst hk
        subst hv
        obtain ⟨hl, hnk⟩ := ih hr
        constructor
        · rw [hl]; rfl
        · intro hm
          rcases List.mem_cons.mp hm with h1 | h2x
          · exact hc h1.symm
          · exact hnk h2x

/-- `'+'`-replacement is the identity on plus-free input. -/
theorem plusToSpace_of_not_mem {l : List Char} (h : '+' ∉ l) : plusToSpace l = l := by
  induction l with
  | nil => rfl
  | cons c cs ih =>
    have hc : ¬(c = '+') := fun hcc => h (by rw [hcc]; exact List.mem_cons_self _ _)
    have hcs : '+' ∉ cs := fun hm => h (List.mem_cons_of_mem c hm)
    have hstep : plusToSpace (c :: cs) =
        (if c = '+' then ' ' else c) :: plusToSpace cs := rfl
    rw [hstep, if_neg hc, ih hcs]

/-- Percent-decoding is the identity on percent-free input, any fuel. -/
theorem percentDecodeFuel_of_not_mem :
    ∀ fuel (l : List Char), '%' ∉ l → percentDecodeFuel l fuel = l := by
  intro fuel
  induction fuel with
  | zero => intro l _; cases l <;> rfl
  | succ fuel ih =>
    intro l h
    cases l with
    | nil => rfl
    | cons c cs =>
      have hc : ¬(c = '%') := fun hcc => h (by rw [hcc]; exact List.mem_cons_self _ _)
      have hcs : '%' ∉ cs := fun hm => h (List.mem_cons_of_mem c hm)
      simp only [percentDecodeFuel, if_neg hc, ih cs hcs]

/-- Percent-decoding is the identity on percent-free input. -/
theorem percentDecode_of_not_mem {l : List Char} (h : '%' ∉ l) :
    percentDecode l = l := percentDecodeFuel_of_not_mem _ l h

/-- `unquote_plus` is the identity on strings free of `%` and `+`. -/
theorem unquotePlus_of_plain {l : List Char} (h : l.all plainChar = true) :
    unquotePlus l = l := by
  have h1 : '+' ∉ l := fun hm => by
    have hx := List.all_eq_true.mp h _ hm
    simp [plainChar] at hx
  have h2 : '%' ∉ l := fun hm => by
    have hx := List.all_eq_true.mp h _ hm
    simp [plainChar] at hx
  rw [unquotePlus, plusToSpace_of_not_mem h1, percentDecode_of_not_mem h2]

/-- Every character of a rendered page number is a decimal digit. -/
theorem natDigitsFuel_chars :
    ∀ fuel n c, c ∈ natDigitsFuel n fuel → ∃ d, d < 10 ∧ c = digitChar d := by
  intro fuel
  induction fuel with
  | zero => intro n c hc; simp [natDigitsFuel] at hc
  | succ fuel ih =>
    intro n c hc
    simp only [natDigitsFuel] at hc
    split at hc
    · rename_i hn
      simp at hc
      exact ⟨n, hn, hc⟩
    · rcases List.mem_append.mp hc with h1 | h2
      · exact ih _ _ h1
      · simp at h2
        exact ⟨n % 10, Nat.mod_lt _ (by omega), h2⟩

/-- Digit characters are not query-structure characters. -/
theorem digitChar_ne {d : Nat} (hd : d < 10) :
    digitChar d ≠ '&' ∧ digitChar d ≠ '=' := by
  interval_cases d <;> exact ⟨by decide, by decide⟩

/-- Under `queryOk`, the syntactic parameters of a query string coincide
with what `parse_qsl` returns. -/
theorem rawPairs_eq_of_queryOk {q : List Char} (hq : queryOk q = true) :
    rawPairs q = (parseQsl q).map (fun kv => (kv.1, some kv.2)) := by
  rw [rawPairs, parseQsl, List.map_filterMap]
  apply List.filterMap_congr
  intro seg hseg
  have hok := List.all_eq_true.mp (by rwa [queryOk] at hq) seg hseg
  rw [segOk] at hok
  cases hsp : splitAtFirst '=' seg with
  | none => rw [hsp] at hok; simp at hok
  | some kv0 =>
    obtain ⟨k, v⟩ := kv0
    rw [hsp] at hok
    simp only [Bool.and_eq_true, Bool.not_eq_true', beq_eq_false_iff_ne, ne_eq,
      List.all_eq_true] at hok
    obtain ⟨⟨hv, hk⟩, hvp⟩ := hok
    have hne : seg ≠ [] := by
      intro hnil
      rw [hnil] at hsp
      simp [splitAtFirst] at hsp
    simp only [if_neg hne, hsp, if_neg hv]
    rw [unquotePlus_of_plain (List.all_eq_true.mpr hk),
      unquotePlus_of_plain (List.all_eq_true.mpr hvp)]
    rfl

/-- Under `queryOk`, parsed parameters contain no `&`, and keys no `=`. -/
theorem parseQsl_mem_props {q : List Char} (hq : queryOk q = true)
    {kv : List Char × List Char} (hm : kv ∈ parseQsl q) :
    '&' ∉ kv.1 ∧ '&' ∉ kv.2 ∧ '=' ∉ kv.1 := by
  rw [parseQsl, List.mem_filterMap] at hm
  obtain ⟨seg, hseg, hf⟩ := hm
  have hns : '&' ∉ seg := mem_splitOnChar_not_sep hseg
  have hok := List.all_eq_true.mp (by rwa [queryOk] at hq) seg hseg
  rw [segOk] at hok
  cases hsp : splitAtFirst '=' seg with
  | none => rw [hsp] at hok; simp at hok
  | some kv0 =>
    obtain ⟨k, v⟩ := kv0
    rw [hsp] at hok
    simp only [Bool.and_eq_true, Bool.not_eq_true', beq_eq_false_iff_ne, ne_eq,
      List.all_eq_true] at hok
    obtain ⟨⟨hv, hk⟩, hvp⟩ := hok
    have hne : seg ≠ [] := by
      intro hnil
      rw [hnil] at hsp
      simp [splitAtFirst] at hsp
    simp only [if_neg hne, hsp, if_neg hv] at hf
    rw [unquotePlus_of_plain (List.all_eq_true.mpr hk),
      unquotePlus_of_plain (List.all_eq_true.mpr hvp)] at hf
    injection hf with hf
    subst hf
    obtain ⟨hl, hknot⟩ := splitAtFirst_eq_some hsp
    have hka : '&' ∉ k := fun hmk => hns (by rw [hl]; exact List.mem_append_left _ hmk)
    have hva : '&' ∉ v := fun hmv =>
      hns (by rw [hl]; exact List.mem_append_right _ (List.mem_cons_of_mem _ hmv))
    exact ⟨hka, hva, hknot⟩

/-- Reading the rebuilt `k=v` fields back syntactically recovers the kept
parameters. -/
theorem filterMap_raw_pairSeg {ps : List (List Char × List Char)}
    (h : ∀ kv ∈ ps, '=' ∉ kv.1) :
    ((ps.map pairSeg).filterMap fun seg =>
      if seg = [] then none
      else
        match splitAtFirst '=' seg with
        | none => some (seg, (none : Option (List Char)))
        | some (k, v) => some (k, some v)) =
    ps.map (fun kv => (kv.1, some kv.2)) := by
  induction ps with
  | nil => rfl
  | cons kv rest ih =>
    obtain ⟨k, v⟩ := kv
    have hk := h (k, v) (List.mem_cons_self _ _)
    have hne : pairSeg (k, v) ≠ [] := by simp [pairSeg]
    have e : (if pairSeg (k, v) = [] then none
        else
          match splitAtFirst '=' (pairSeg (k, v)) with
          | none => some (pairSeg (k, v), (none : Option (List Char)))
          | some (k2, v2) => some (k2, some v2)) = some (k, some v) := by
      rw [if_neg hne, show pairSeg (k, v) = k ++ '=' :: v from rfl,
        splitAtFirst_append hk]
    simp only [List.map_cons, List.filterMap_cons]
    rw [e]
    exact congrArg (fun l => (k, some v) :: l)
      (ih fun x hx => h x (List.mem_cons_of_mem _ hx))

/-- C5 (amended): rebuilding the query preserves every non-`page` parameter's
key, value and relative order and appends the requested page number —
provided every parameter of the entry URL has a nonempty value and uses no
`%`-escapes or `+` (parameters with blank values are dropped by
`parse_qsl`, and decoding is not re-encoded on rebuild). -/
theorem rebuild_preserves_other_params (q : List Char) (n : Nat)
    (hq : queryOk q = true) :
    rawPairs (rebuildQuery (scraperParams q) n) =
      (rawPairs q).filter (fun pr => !(pr.1 == "page".data)) ++
        [("page".data, some (natDigits n))] := by
  have hsep : ∀ g ∈ (scraperParams q).map pairSeg ++
      ["page=".data ++ natDigits n], '&' ∉ g := by
    intro g hg
    rcases List.mem_append.mp hg with h1 | h2
    · obtain ⟨kv, hkv, rfl⟩ := List.mem_map.mp h1
      have hkv2 : kv ∈ parseQsl q := List.mem_of_mem_filter hkv
      obtain ⟨ha, hb, _⟩ := parseQsl_mem_props hq hkv2
      intro hmem
      rcases List.mem_append.mp hmem with hx | hx
      · exact ha hx
      · rcases List.mem_cons.mp hx with hx1 | hx2
        · exact absurd hx1 (by decide)
        · exact hb hx2
    · simp only [List.mem_singleton] at h2
      subst h2
      intro hmem
      rcases List.mem_append.mp hmem with hx | hx
      · revert hx; decide
      · obtain ⟨d, hd, hc⟩ := natDigitsFuel_chars _ _ _ hx
        exact (digitChar_ne hd).1 hc.symm
  have hsegs := @splitOnChar_intercalate '&'
    ((scraperParams q).map pairSeg ++ ["page=".data ++ natDigits n])
    (by simp) hsep
  rw [rebuildQuery, rawPairs, hsegs, List.filterMap_append]
  congr 1
  · have hmem : ∀ kv ∈ scraperParams q, '=' ∉ kv.1 := fun kv hkv =>
      (parseQsl_mem_props hq (List.mem_of_mem_filter hkv)).2.2
    rw [filterMap_raw_pairSeg hmem, rawPairs_eq_of_queryOk hq, scraperParams,
      List.filter_map]
    congr 1

/-- C5 counterexample: for the entry query `a=&b=2`, the parameter `a`
(whose value is blank) is dropped by parameter parsing, so the rebuilt URL
no longer carries it — stripping and re-adding `page` does not preserve
every other parameter. -/
theorem rebuild_drops_blank_valued_param :
    ¬ ((rawPairs (rebuildQuery (scraperParams "a=&b=2".data) 1)).filter
          (fun pr => !(pr.1 == "page".data)) =
        (rawPairs "a=&b=2".data).filter (fun pr => !(pr.1 == "page".data))) := by
  decide

/-- Witness for C5 (amended) at the repository test suite's own entry query
`foo=bar&page=5`, requesting page 1. -/
theorem rebuild_preserves_other_params_witness :
    rawPairs (rebuildQuery (scraperParams "foo=bar&page=5".data) 1) =
      (rawPairs "foo=bar&page=5".data).filter
        (fun pr => !(pr.1 == "page".data)) ++
        [("page".data, some (natDigits 1))] :=
  rebuild_preserves_other_params "foo=bar&page=5".data 1 (by decide)

end Suumo
